import Mathlib

/-!
Verification development for the conversational shopping assistant in
`src/app.py`.  The Python source is shallowly embedded: every function of the
orchestration core (price localization, catalog search and stock filtering,
result formatting, GPT planning, the message orchestrator, and the webhook
endpoint) is translated into an executable Lean definition.  External
collaborators (the inference provider, the WooCommerce catalog, the Telegram
transport) appear as explicit oracle parameters, exactly at the request and
response boundary the source gives them.  Python exceptions are modelled with
`Except Unit`; Python numbers are modelled with `ℚ`.
-/

/-- A JSON-like dynamic value, modelling the loosely typed Python data the
planner and webhook code manipulate (results of `json.loads`, webhook bodies,
plan dictionaries).  Objects model Python dicts as association lists. -/
inductive Json where
  | null : Json
  | bool : Bool → Json
  | num : ℚ → Json
  | str : String → Json
  | arr : List Json → Json
  | obj : List (String × Json) → Json

/-- Python truthiness of a JSON value (`bool(x)`): `None`, `False`, `0`, the
empty string, the empty list and the empty dict are falsy. -/
def Json.truthy : Json → Bool
  | .null => false
  | .bool b => b
  | .num q => if q = 0 then false else true
  | .str s => if s = "" then false else true
  | .arr xs => !xs.isEmpty
  | .obj kvs => !kvs.isEmpty

/-- Key lookup in an association list, modelling `dict.get` on a Python dict
(first match; the embedding uses objects with distinct keys, as produced by
`json.loads`). -/
def jget? (kvs : List (String × Json)) (k : String) : Option Json :=
  match kvs with
  | [] => none
  | (k₁, v) :: rest => if k₁ = k then some v else jget? rest k

/-- `d.get(k)` on a JSON value: key lookup on objects, `None`-like absence
otherwise. -/
def Json.get? : Json → String → Option Json
  | .obj kvs, k => jget? kvs k
  | _, _ => none

/-- `d.get(k, default)`. -/
def Json.getD (j : Json) (k : String) (d : Json) : Json :=
  (j.get? k).getD d

/-- The whitespace characters Python `str.strip` removes (ASCII fragment of
the Unicode whitespace class used by Python). -/
def pyIsSpace (c : Char) : Bool :=
  c == ' ' || c == '\t' || c == '\n' || c == '\r' || c == '\x0b' || c == '\x0c'

/-- Python `s.strip()`: drop leading and trailing whitespace. -/
def pyStrip (s : String) : String :=
  String.mk (((s.toList.dropWhile pyIsSpace).reverse.dropWhile pyIsSpace).reverse)

/-- `safe_text` from `src/app.py`: `(s or "").strip()` on an optional string. -/
def safe_text (s : Option String) : String :=
  pyStrip (s.getD "")

/-- `safe_text` applied to a dynamic value (as in `safe_text(plan.get("reply", "")))`:
`(x or "").strip()` succeeds on strings and falsy values and raises
`AttributeError` on truthy non-strings. -/
def safe_text_j : Json → Except Unit String
  | .str s => .ok (pyStrip s)
  | .null => .ok ""
  | .bool false => .ok ""
  | .bool true => .error ()
  | .num q => if q = 0 then .ok "" else .error ()
  | .arr [] => .ok ""
  | .arr (_ :: _) => .error ()
  | .obj [] => .ok ""
  | .obj (_ :: _) => .error ()

/-- The decimal digit character for `n` (used for `n` below 10; clamps at 9). -/
def digitChar10 (n : Nat) : Char :=
  if n = 0 then '0'
  else if n = 1 then '1'
  else if n = 2 then '2'
  else if n = 3 then '3'
  else if n = 4 then '4'
  else if n = 5 then '5'
  else if n = 6 then '6'
  else if n = 7 then '7'
  else if n = 8 then '8'
  else '9'

/-- Decimal digits of a natural number, least significant first, computed with
an explicit fuel argument so that the definition is structurally recursive and
kernel-evaluable.  With fuel at least `n + 1` the digits are complete. -/
def natDigitsRevF : Nat → Nat → List Char
  | 0, _ => []
  | fuel + 1, n =>
    if n < 10 then [digitChar10 n]
    else digitChar10 (n % 10) :: natDigitsRevF fuel (n / 10)

/-- Decimal digits of a natural number, least significant first. -/
def natDigitsRev (n : Nat) : List Char :=
  natDigitsRevF (n + 1) n

/-- Insert the Persian thousands separator every three digits.  The input is a
digit list least significant first; `k` counts the digits already emitted in
the current group.  Models the `,`-grouping of Python `f"{i:,}"` followed by
`.replace(",", "٬")`. -/
def insertSepRev : List Char → Nat → List Char
  | [], _ => []
  | c :: rest, k =>
    if k = 3 then '٬' :: c :: insertSepRev rest 1
    else c :: insertSepRev rest (k + 1)

/-- Floor of a rational number. -/
def ratfloor (q : ℚ) : ℤ :=
  ⌊q⌋

/-- Python `round` (banker's rounding, round half to even) on a rational,
followed by `int(...)` (the identity on the rounded value). -/
def pyRound (q : ℚ) : ℤ :=
  let f := ratfloor q
  let r := q - (f : ℚ)
  if r < 1 / 2 then f
  else if 1 / 2 < r then f + 1
  else if f % 2 = 0 then f else f + 1

/-- `add_thousands_sep` from `src/app.py`: `int(round(n))` rendered with the
Persian thousands separator `٬`.  The Python `except` branch is only reachable
on non-finite floats, which the rational model excludes. -/
def add_thousands_sep (n : ℚ) : String :=
  let i := pyRound n
  let grouped := (insertSepRev (natDigitsRev i.natAbs) 0).reverse
  String.mk ((if i < 0 then ['-'] else []) ++ grouped)

/-- Numeric value of a list of decimal digit characters, most significant
first. -/
def digitsVal (l : List Char) : ℚ :=
  l.foldl (fun a c => a * 10 + ((c.toNat - 48 : ℕ) : ℚ)) 0

/-- Value of a fractional digit string: `fracVal ['2','5'] = 1/4`. -/
def fracVal (l : List Char) : ℚ :=
  l.foldr (fun c a => (((c.toNat - 48 : ℕ) : ℚ) + a) / 10) 0

/-- Python `float(s)` on the plain decimal fragment: an optional sign followed
by digits with an optional fractional part.  Exponents, `inf`/`nan`,
underscores, non-ASCII digits and surrounding whitespace are outside the
modelled fragment and parse to `none` (as do all malformed strings, where
`float` raises `ValueError`). -/
def pyFloat? (s : String) : Option ℚ :=
  let signRest : ℚ × List Char :=
    match s.toList with
    | '-' :: r => (-1, r)
    | '+' :: r => (1, r)
    | r => (1, r)
  let sign := signRest.1
  let rest := signRest.2
  let ip := rest.takeWhile Char.isDigit
  let rest₂ := rest.dropWhile Char.isDigit
  match rest₂ with
  | [] => if ip.isEmpty then none else some (sign * digitsVal ip)
  | '.' :: r₃ =>
    let fp := r₃.takeWhile Char.isDigit
    let rest₄ := r₃.dropWhile Char.isDigit
    if rest₄.isEmpty && !(ip.isEmpty && fp.isEmpty) then
      some (sign * (digitsVal ip + fracVal fp))
    else none
  | _ => none

/-- `to_toman` from `src/app.py`, with the configured divisor and currency
label made explicit.  The raw price is an optional string, as delivered by the
WooCommerce price fields.  A parse failure (`float` raising) falls back to the
raw value rendered verbatim with the label. -/
def to_toman (divisor : ℚ) (label : String) (raw_price : Option String) : String :=
  match raw_price with
  | none => "0 " ++ label
  | some s =>
    if s = "" ∨ s = "0" then "0 " ++ label
    else
      match pyFloat? s with
      | some v => add_thousands_sep (if divisor = 0 then v else v / divisor) ++ " " ++ label
      | none => s ++ " " ++ label

/-- The value of `PRICE_DIVISOR` when the environment variable is unset:
`float(os.getenv("PRICE_DIVISOR", "10")) = 10`. -/
def defaultPriceDivisor : ℚ := 10

example : pyFloat? "100" = some 100 := by simp [pyFloat?, digitsVal]; norm_num
example : pyFloat? "12.5" = some (25 / 2) := by
  simp [pyFloat?, digitsVal, fracVal]; norm_num
example : pyFloat? "abc" = none := by simp [pyFloat?]
example : pyFloat? "" = none := by simp [pyFloat?]
example : pyRound (21 / 2 : ℚ) = 10 := by norm_num [pyRound, ratfloor]
example : pyRound (25 / 10 : ℚ) = 2 := by norm_num [pyRound, ratfloor]
example : pyRound (35 / 10 : ℚ) = 4 := by norm_num [pyRound, ratfloor]
example : pyRound (-25 / 10 : ℚ) = -2 := by norm_num [pyRound, ratfloor]
example : add_thousands_sep 1234567 = "1٬234٬567" := by
  have h : pyRound 1234567 = 1234567 := by norm_num [pyRound, ratfloor]
  simp [add_thousands_sep, h]; decide
example : add_thousands_sep (-1000) = "-1٬000" := by
  have h : pyRound (-1000) = -1000 := by norm_num [pyRound, ratfloor]
  simp [add_thousands_sep, h]; decide
example : to_toman 10 "تومان" (some "100") = "10 تومان" := by
  have hp : pyFloat? "100" = some 100 := by simp [pyFloat?, digitsVal]; norm_num
  have hr : pyRound ((100 : ℚ) / 10) = 10 := by norm_num [pyRound, ratfloor]
  simp [to_toman, hp, add_thousands_sep, hr]
  decide
example : to_toman 10 "تومان" (some "xyz") = "xyz تومان" := by
  have hp : pyFloat? "xyz" = none := by simp [pyFloat?]
  simp [to_toman, hp]
example : to_toman 10 "تومان" none = "0 تومان" := by simp [to_toman]

/-- The stock-quantity field of a catalog record: absent/`null`, an integer,
or a malformed value on which Python `(x or 0) > 0` raises (a `TypeError`
caught by `is_in_stock`). -/
inductive StockQty where
  | null : StockQty
  | int : ℤ → StockQty
  | malformed : StockQty

/-- A catalog entry as returned by the WooCommerce backend (spec §3
ProductRecord).  String-typed fields are optional strings; `attributes` is an
arbitrary dynamic value so that malformed attribute structures are
representable. -/
structure ProductRecord where
  name : Option String := none
  price : Option String := none
  regular_price : Option String := none
  permalink : Option String := none
  sku : Option String := none
  stock_status : Option String := none
  manage_stock : Bool := false
  stock_quantity : StockQty := StockQty.null
  attributes : Json := Json.arr []

/-- `is_in_stock` from `src/app.py`: `stock_status == "instock"`, or
`manage_stock` with `(stock_quantity or 0) > 0`, where a `null` quantity
becomes `0` and a malformed quantity raises inside the `try` and yields
`False`. -/
def is_in_stock (p : ProductRecord) : Bool :=
  if p.stock_status = some "instock" then true
  else if p.manage_stock then
    match p.stock_quantity with
    | StockQty.int n => if 0 < n then true else false
    | StockQty.null => false
    | StockQty.malformed => false
  else false

/-- The character class kept by the query sanitizer in `search_products`:
`[0-9A-Za-z؀-ۿ\s\-\_]` (ASCII whitespace fragment of `\s`). -/
def allowedChar (c : Char) : Bool :=
  c.isDigit || c.isAlpha ||
    (decide (0x600 ≤ c.toNat) && decide (c.toNat ≤ 0x6FF)) ||
    pyIsSpace c || c == '-' || c == '_'

/-- `clean` from `search_products`: `re.sub` replaces every character outside
the allowed class with a single space. -/
def clean (s : String) : String :=
  String.mk (s.toList.map (fun c => if allowedChar c then c else ' '))

/-- The sparse criteria object produced by the planner (spec §3 Criteria).
`query` is a string when present (the planner schema types it so);
price bounds and the unused fields keep their dynamic values. -/
structure Criteria where
  query : Option String := none
  category : Option Json := none
  brand : Option Json := none
  min_price : Option Json := none
  max_price : Option Json := none
  attributes : Option Json := none

/-- The query-parameter dictionary `search_products` sends to the catalog
backend (credentials and URL handled by `wc_get` are outside the modelled
boundary). -/
structure WcParams where
  per_page : ℤ
  status : String
  orderby : String
  order : String
  search : Option String
  min_price : Option Json
  max_price : Option Json

/-- The parameter-building half of `search_products`: page size
`min(max(limit,1),10)`, fixed publish/relevance/desc parameters, the sanitized
and truncated free-text query when present and non-empty, and the price bounds
when truthy. -/
def buildParams (criteria : Criteria) (limit : ℤ) : WcParams :=
  { per_page := min (max limit 1) 10
  , status := "publish"
  , orderby := "relevance"
  , order := "desc"
  , search :=
      match criteria.query with
      | some s => if s = "" then none else some (String.mk ((clean s).toList.take 80))
      | none => none
  , min_price :=
      match criteria.min_price with
      | some j => if j.truthy then some j else none
      | none => none
  , max_price :=
      match criteria.max_price with
      | some j => if j.truthy then some j else none
      | none => none }

/-- Python list slicing `xs[:limit]` for an arbitrary integer bound: a
non-negative bound takes a prefix, a negative bound drops `|limit|` elements
from the end. -/
def pyTakeTo (xs : List α) (limit : ℤ) : List α :=
  if 0 ≤ limit then xs.take limit.toNat
  else xs.take (xs.length - (-limit).toNat)

/-- `search_products` from `src/app.py`.  The backend fetch (`wc_get`, a GET
with a 20-second timeout whose non-success statuses raise) is an oracle
`fetch`; any fetch failure is caught and yields `[]`.  The fetched records are
filtered to in-stock ones and truncated to `limit`. -/
def search_products (fetch : WcParams → Except Unit (List ProductRecord))
    (criteria : Criteria) (limit : ℤ) : List ProductRecord :=
  match fetch (buildParams criteria limit) with
  | .error _ => []
  | .ok items => pyTakeTo (items.filter is_in_stock) limit

/-- A catalog oracle whose fetch always fails (network error or non-success
status). -/
def fetchFail : WcParams → Except Unit (List ProductRecord) :=
  fun _ => .error ()

/-- ASCII lowercasing of a character (`str.lower` on the fragment relevant to
the brand-name comparison; Persian letters have no case). -/
def pyLowerChar (c : Char) : Char :=
  if 'A' ≤ c ∧ c ≤ 'Z' then Char.ofNat (c.toNat + 32) else c

/-- Python `s.lower()` on the ASCII fragment. -/
def pyLower (s : String) : String :=
  String.mk (s.toList.map pyLowerChar)

/-- `p[0]` on a dynamic value known to be truthy: indexes lists and strings,
raises `TypeError` or `KeyError` otherwise. -/
def pyIndex0 : Json → Except Unit Json
  | .arr (x :: _) => .ok x
  | .arr [] => .error ()
  | .str s =>
    match s.toList with
    | c :: _ => .ok (Json.str (String.mk [c]))
    | [] => .error ()
  | _ => .error ()

/-- The brand-extraction loop of `format_products` over the attribute list:
the first attribute whose lowercased name is `brand`/`برند` and whose
`options` are truthy contributes `options[0]`; any exception inside the
`try` aborts the whole loop and leaves the brand at `""`. -/
def brandLoop : List Json → Json
  | [] => .str ""
  | attr :: rest =>
    match attr with
    | .obj kvs =>
      match (jget? kvs "name").getD (Json.str "") with
      | .str s =>
        if pyLower s = "brand" ∨ pyLower s = "برند" then
          let opts := (jget? kvs "options").getD Json.null
          if opts.truthy then
            match pyIndex0 opts with
            | .ok v => v
            | .error _ => .str ""
          else brandLoop rest
        else brandLoop rest
      | _ => .str ""
    | _ => .str ""

/-- Brand extraction from a record's `attributes` value.  Iterating a
non-list value either raises immediately or produces elements on which
`attr.get` raises; in both cases the surrounding `try` leaves the brand
empty. -/
def extract_brand : Json → Json
  | .arr xs => brandLoop xs
  | _ => .str ""

/-- `" | ".join([x for x in [brand, skuPart] if x])`: keeps the truthy items
and joins them; `join` raises `TypeError` when a kept item is not a string. -/
def metaOf (brand : Json) (skuPart : String) : Except Unit String :=
  if brand.truthy then
    match brand with
    | .str b => .ok (if skuPart = "" then b else b ++ " | " ++ skuPart)
    | _ => .error ()
  else .ok skuPart

/-- One product block of `format_products`: bolded name, localized price,
optional brand/SKU metadata, and the view/purchase link. -/
def formatLine (divisor : ℚ) (label : String) (p : ProductRecord) :
    Except Unit String :=
  let name := safe_text p.name
  let price := to_toman divisor label
    (match p.price with
     | some s => if s = "" then p.regular_price else some s
     | none => p.regular_price)
  let link := safe_text p.permalink
  let sku := safe_text p.sku
  let skuPart := if sku = "" then "" else "SKU: " ++ sku
  match metaOf (extract_brand p.attributes) skuPart with
  | .error e => .error e
  | .ok meta =>
    .ok ("• <b>" ++ name ++ "</b> — " ++ price ++
      (if meta = "" then "" else " | " ++ meta) ++
      "\n<a href='" ++ link ++ "'>مشاهده/خرید</a>")

/-- The per-product loop of `format_products`. -/
def formatLines (divisor : ℚ) (label : String) :
    List ProductRecord → Except Unit (List String)
  | [] => .ok []
  | p :: ps =>
    match formatLine divisor label p with
    | .error e => .error e
    | .ok l =>
      match formatLines divisor label ps with
      | .error e => .error e
      | .ok ls => .ok (l :: ls)

/-- `format_products` from `src/app.py`: the fixed nothing-found message on an
empty result set, otherwise the product blocks joined by blank lines. -/
def format_products (divisor : ℚ) (label : String)
    (products : List ProductRecord) : Except Unit String :=
  if products.isEmpty then .ok "فعلاً موردی مطابق معیارها موجود نیست."
  else
    match formatLines divisor label products with
    | .error e => .error e
    | .ok ls => .ok (String.intercalate "\n\n" ls)

/-- A record whose rendering cannot raise: the extracted brand is either a
string or falsy (so the metadata join succeeds). -/
def brandRenderSafe (p : ProductRecord) : Bool :=
  match extract_brand p.attributes with
  | .str _ => true
  | b => !b.truthy

/-- A record whose attribute structure makes `format_products` raise: the
brand extracted from `attributes` is the non-string value `5`, on which
`" | ".join` raises `TypeError` outside the `try` that guards extraction. -/
def badAttrsProduct : ProductRecord :=
  { name := some "p"
  , price := some "1000"
  , permalink := some "https://example.test/p"
  , stock_status := some "instock"
  , attributes := Json.arr [Json.obj [("name", Json.str "brand"), ("options", Json.arr [Json.num 5])]] }

example : extract_brand badAttrsProduct.attributes = Json.num 5 := by
  have hb : pyLower "brand" = "brand" := by decide
  simp [badAttrsProduct, extract_brand, brandLoop, jget?, Json.truthy, pyIndex0, hb]

/-- The extraction-relevant shape of one inference response: the result of
`json.loads(resp.output_text)` (`none` when the attribute access or the parse
raises) and likewise for the fallback path
`json.loads(resp.output[0].content[0].text)`. -/
structure GptResp where
  primary : Option Json
  fallback : Option Json

/-- The robust-extraction chain of `call_gpt`: the primary parse, else the
fallback crawl; `none` models the case where `data_json` stays unset and the
`isinstance` check then raises `ValueError` inside the outer `try`. -/
def extract (resp : GptResp) : Option Json :=
  match resp.primary with
  | some j => some j
  | none => resp.fallback

/-- The fixed plan returned when no OpenAI client is configured (dry-run
fallback at the top of `call_gpt`). -/
def gptOfflinePlan : Json :=
  Json.obj [("reply", Json.str "لطفاً یک ویژگی از محصول بگو تا جستجو کنم."), ("action", Json.str "none")]

/-- The fixed degraded plan returned by the outer `except` of `call_gpt`. -/
def gptDegradedPlan : Json :=
  Json.obj [("reply", Json.str "در پردازش درخواست مشکلی پیش آمد. لطفاً دوباره تلاش کن یا ویژگی‌های بیشتری بگو."), ("action", Json.str "none")]

/-- `call_gpt` from `src/app.py`.  The inference capability is an oracle:
`none` models an unconfigured client, `some (.error _)` a request that raises
(network failure, schema rejection), `some (.ok resp)` a response handed to
the extraction chain.  A non-dict extraction raises `ValueError`, caught by
the outer `except`, which returns the degraded plan; every exception is
caught, so the function is total. -/
def call_gpt (infer : Option (Except Unit GptResp)) (user_text : String) : Json :=
  match infer with
  | none => gptOfflinePlan
  | some (Except.error _) => gptDegradedPlan
  | some (Except.ok resp) =>
    match extract resp with
    | some (Json.obj kvs) => Json.obj kvs
    | _ => gptDegradedPlan

/-- The property claimed of every planner result: a dict carrying a non-empty
string `reply` and an `action` that is `none` or `search_products`. -/
def validPlanB (j : Json) : Bool :=
  match j.get? "reply", j.get? "action" with
  | some (Json.str r), some (Json.str a) =>
    (if r = "" then false else true) && (a == "none" || a == "search_products")
  | _, _ => false

/-- Conformance of one `criteria.attributes` item to the `PRODUCT_SCHEMA`
sub-schema `{name: string, value: string}`, `additionalProperties: false`,
both required. -/
def conformsAttrItem (j : Json) : Bool :=
  match j with
  | Json.obj kvs =>
    (match jget? kvs "name" with | some (Json.str _) => true | _ => false)
    && (match jget? kvs "value" with | some (Json.str _) => true | _ => false)
    && kvs.all (fun kv => kv.1 == "name" || kv.1 == "value")
    && decide (kvs.map Prod.fst).Nodup
  | _ => false

/-- Conformance of a `criteria` value to the `PRODUCT_SCHEMA` sub-schema:
optional string `query`/`category`/`brand`, optional numeric
`min_price`/`max_price`, optional attribute array, no additional
properties. -/
def conformsCriteria (j : Json) : Bool :=
  match j with
  | Json.obj kvs =>
    kvs.all (fun kv =>
      kv.1 == "query" || kv.1 == "category" || kv.1 == "brand" ||
      kv.1 == "min_price" || kv.1 == "max_price" || kv.1 == "attributes")
    && decide (kvs.map Prod.fst).Nodup
    && (match jget? kvs "query" with | none => true | some (Json.str _) => true | _ => false)
    && (match jget? kvs "category" with | none => true | some (Json.str _) => true | _ => false)
    && (match jget? kvs "brand" with | none => true | some (Json.str _) => true | _ => false)
    && (match jget? kvs "min_price" with | none => true | some (Json.num _) => true | _ => false)
    && (match jget? kvs "max_price" with | none => true | some (Json.num _) => true | _ => false)
    && (match jget? kvs "attributes" with
        | none => true
        | some (Json.arr xs) => xs.all conformsAttrItem
        | _ => false)
  | _ => false

/-- Conformance to `PRODUCT_SCHEMA` from `src/app.py` (strict mode): a dict
with required string `reply`, required `action` in the enumeration, optional
conforming `criteria`, and no additional properties. -/
def conformsSchema (j : Json) : Bool :=
  match j with
  | Json.obj kvs =>
    kvs.all (fun kv => kv.1 == "reply" || kv.1 == "action" || kv.1 == "criteria")
    && decide (kvs.map Prod.fst).Nodup
    && (match jget? kvs "reply" with | some (Json.str _) => true | _ => false)
    && (match jget? kvs "action" with
        | some (Json.str a) => a == "none" || a == "search_products"
        | _ => false)
    && (match jget? kvs "criteria" with | none => true | some c => conformsCriteria c)
  | _ => false

/-- Conversion of the plan's dynamic `criteria` value into the typed criteria
record used by `search_products`.  A falsy value is replaced by `{}` (the
`or {}` in `on_message`); a truthy non-dict value, or a truthy non-string
`query`, makes the Python `search_products` raise before any fetch
(`"query" in criteria` / `criteria.get` / `re.sub` on a non-string), modelled
here as an error at conversion time. -/
def criteriaOfJson : Json → Except Unit Criteria
  | Json.obj kvs =>
    match (match jget? kvs "query" with
      | some v =>
        if v.truthy then
          match v with
          | Json.str s => Except.ok (some s)
          | _ => Except.error ()
        else Except.ok (none : Option String)
      | none => Except.ok none) with
    | .error e => .error e
    | .ok q =>
      .ok { query := q
          , category := jget? kvs "category"
          , brand := jget? kvs "brand"
          , min_price := jget? kvs "min_price"
          , max_price := jget? kvs "max_price"
          , attributes := jget? kvs "attributes" }
  | j => if j.truthy then Except.error () else Except.ok {}

/-- The catalog branch of `on_message`: search, then either the header plus
the formatted block, or the fixed nothing-matched prompt. -/
def searchBlock (fetch : WcParams → Except Unit (List ProductRecord))
    (divisor : ℚ) (label : String) (results_limit : ℤ) (criteria : Criteria) :
    Except Unit String :=
  let products := search_products fetch criteria results_limit
  if products.isEmpty then
    .ok "فعلاً موردی مطابق معیارها موجود نیست. مایل هستی معیارها را کمی تغییر دهیم؟"
  else
    match format_products divisor label products with
    | .error e => .error e
    | .ok f => .ok ("<b>پیشنهادهای موجود:</b>\n" ++ f)

/-- The final composition step of `on_message`:
`"\n\n".join([p for p in reply_parts if p]).strip() or "پیامت دریافت شد."`. -/
def finalize (parts : List String) : String :=
  let final := pyStrip (String.intercalate "\n\n" (parts.filter (fun p => p ≠ "")))
  if final = "" then "پیامت دریافت شد." else final

/-- The catalog-conditional part of `on_message`: the final `reply_parts`
list, given the already-stripped planner reply `r`. -/
def planParts (fetch : WcParams → Except Unit (List ProductRecord))
    (divisor : ℚ) (label : String) (results_limit : ℤ) (plan : Json)
    (r : String) : Except Unit (List String) :=
  match plan.get? "action" with
  | some (Json.str a) =>
    if a = "search_products" then
      let c₀ := plan.getD "criteria" (Json.obj [])
      let c := if c₀.truthy then c₀ else Json.obj []
      match criteriaOfJson c with
      | .error e => .error e
      | .ok criteria =>
        match searchBlock fetch divisor label results_limit criteria with
        | .error e => .error e
        | .ok block => .ok [r, block]
    else .ok [r]
  | _ => .ok [r]

/-- The body of `on_message` after the planner call: strip the reply, follow
the `search_products` branch when the plan requests it, and finalize. -/
def compose_reply (fetch : WcParams → Except Unit (List ProductRecord))
    (divisor : ℚ) (label : String) (results_limit : ℤ) (plan : Json) :
    Except Unit String :=
  match safe_text_j (plan.getD "reply" (Json.str "")) with
  | .error e => .error e
  | .ok r =>
    match planParts fetch divisor label results_limit plan r with
    | .error e => .error e
    | .ok parts => .ok (finalize parts)

/-- `on_message` from `src/app.py` (the orchestrator): extract the text
(empty when absent), plan, compose.  The outbound `msg.answer` delivery is the
transport boundary and is outside the modelled value. -/
def on_message (infer : Option (Except Unit GptResp))
    (fetch : WcParams → Except Unit (List ProductRecord))
    (divisor : ℚ) (label : String) (results_limit : ℤ)
    (msg_text : Option String) : Except Unit String :=
  compose_reply fetch divisor label results_limit (call_gpt infer (msg_text.getD ""))

/-- The inference boundary contract (spec §6): whenever the oracle delivers a
response from which a dict is extracted, that dict conforms to the strict
`PRODUCT_SCHEMA` the request declares. -/
def PlanOK (infer : Option (Except Unit GptResp)) : Prop :=
  ∀ resp kvs, infer = some (Except.ok resp) →
    extract resp = some (Json.obj kvs) → conformsSchema (Json.obj kvs) = true

/-- The catalog boundary contract used by the orchestrator claim: fetched
records render without raising (their extracted brand is a string or falsy). -/
def FetchOK (fetch : WcParams → Except Unit (List ProductRecord)) : Prop :=
  ∀ ps items p, fetch ps = Except.ok items → p ∈ items → brandRenderSafe p = true

/-- An inference oracle whose response is the schema-valid plan
`{reply: "", action: "none"}`: the composed text is then empty after
trimming. -/
def emptyReplyInfer : Option (Except Unit GptResp) :=
  some (Except.ok ⟨some (Json.obj [("reply", Json.str ""), ("action", Json.str "none")]), none⟩)

/-- Modelled from the spec: the transport adapter
(`types.Update.model_validate`, external to `src/app.py`) accepts exactly the
payloads that validate as a Telegram Update, which must carry an integer
`update_id`; coercions beyond integral numbers are not modelled.  A payload
failing validation raises out of the endpoint. -/
def validate_update (j : Json) : Except Unit (ℤ) :=
  match j with
  | Json.obj kvs =>
    match jget? kvs "update_id" with
    | some (Json.num q) => if q.den = 1 then .ok q.num else .error ()
    | _ => .error ()
  | _ => .error ()

/-- The fixed acknowledgment object `{"ok": True}` the webhook returns. -/
structure WebhookAck where
  ok : Bool

/-- `telegram_webhook` from `src/app.py`: validate the body as an Update,
feed it to the dispatcher (`dp.feed_update`, an oracle: handler exceptions
propagate out of it when no error handler is registered), then acknowledge. -/
def telegram_webhook (feed : ℤ → Except Unit Unit) (body : Json) :
    Except Unit WebhookAck :=
  match validate_update body with
  | .error e => .error e
  | .ok u =>
    match feed u with
    | .error e => .error e
    | .ok _ => .ok { ok := true }

/-- A dispatcher oracle whose handling always succeeds. -/
def feedOk : ℤ → Except Unit Unit :=
  fun _ => .ok ()

theorem pyTakeTo_eq_take (xs : List α) (limit : ℤ) :
    ∃ k, pyTakeTo xs limit = xs.take k := by
  unfold pyTakeTo
  split
  · exact ⟨limit.toNat, rfl⟩
  · exact ⟨xs.length - (-limit).toNat, rfl⟩

theorem length_pyTakeTo_le (xs : List α) (limit : ℤ) :
    (pyTakeTo xs limit).length ≤ xs.length := by
  obtain ⟨k, hk⟩ := pyTakeTo_eq_take xs limit
  rw [hk]
  simpa using List.length_take_le k xs

theorem mem_pyTakeTo {xs : List α} {limit : ℤ} {p : α}
    (h : p ∈ pyTakeTo xs limit) : p ∈ xs := by
  obtain ⟨k, hk⟩ := pyTakeTo_eq_take xs limit
  rw [hk] at h
  exact List.mem_of_mem_take h

theorem pyFloat?_zero : pyFloat? "0" = some 0 := by
  simp [pyFloat?, digitsVal]

theorem pyFloat?_empty : pyFloat? "" = none := rfl

/-- Evaluation of the parse branch of `to_toman` on a parsed price. -/
theorem to_toman_parsed (divisor : ℚ) (label : String) (p : String) (q : ℚ)
    (hp : pyFloat? p = some q) (hd : divisor ≠ 0) :
    to_toman divisor label (some p) = add_thousands_sep (q / divisor) ++ " " ++ label := by
  have h0 : ¬(p = "" ∨ p = "0") ∨ p = "0" := by
    by_cases h : p = "0"
    · exact Or.inr h
    · left
      rintro (he | he)
      · rw [he, pyFloat?_empty] at hp; exact Option.noConfusion hp
      · exact h he
  rcases h0 with h | h
  · simp only [to_toman, if_neg h, hp, if_neg hd]
  · rw [h] at hp
    rw [pyFloat?_zero] at hp
    have hq : q = 0 := (Option.some.inj hp).symm
    subst hq
    rw [h]
    have h1 : to_toman divisor label (some "0") = "0 " ++ label := by
      simp [to_toman]
    have hz : add_thousands_sep ((0 : ℚ) / divisor) = "0" := by
      rw [zero_div]
      have hr : pyRound 0 = 0 := by norm_num [pyRound, ratfloor]
      simp only [add_thousands_sep, hr]
      decide
    rw [h1, hz]
    rw [show ("0" ++ " " : String) = "0 " from by decide]

/-- Evaluation of the parse branch of `to_toman` with a zero divisor: the
division is skipped. -/
theorem to_toman_parsed_nodiv (label : String) (p : String) (q : ℚ)
    (hp : pyFloat? p = some q) :
    to_toman 0 label (some p) = add_thousands_sep q ++ " " ++ label := by
  have h0 : ¬(p = "" ∨ p = "0") ∨ p = "0" := by
    by_cases h : p = "0"
    · exact Or.inr h
    · left
      rintro (he | he)
      · rw [he, pyFloat?_empty] at hp; exact Option.noConfusion hp
      · exact h he
  rcases h0 with h | h
  · simp [to_toman, if_neg h, hp]
  · rw [h] at hp
    rw [pyFloat?_zero] at hp
    have hq : q = 0 := (Option.some.inj hp).symm
    subst hq
    rw [h]
    have h1 : to_toman 0 label (some "0") = "0 " ++ label := by
      simp [to_toman]
    have hz : add_thousands_sep (0 : ℚ) = "0" := by
      have hr : pyRound 0 = 0 := by norm_num [pyRound, ratfloor]
      simp only [add_thousands_sep, hr]
      decide
    rw [h1, hz]
    rw [show ("0" ++ " " : String) = "0 " from by decide]

theorem pyRound_intCast (n : ℤ) : pyRound ((n : ℤ) : ℚ) = n := by
  unfold pyRound ratfloor
  simp only [Int.floor_intCast, sub_self]
  norm_num

/-- Rendering a rational and rendering its Python rounding agree: the display
always shows the rounded integer. -/
theorem add_thousands_sep_round (x : ℚ) :
    add_thousands_sep ((pyRound x : ℤ) : ℚ) = add_thousands_sep x := by
  unfold add_thousands_sep
  rw [pyRound_intCast]

theorem digitChar10_isDigit (n : ℕ) : (digitChar10 n).isDigit = true := by
  unfold digitChar10
  split_ifs <;> rfl

theorem mem_natDigitsRevF {fuel n : ℕ} {c : Char}
    (h : c ∈ natDigitsRevF fuel n) : c.isDigit = true := by
  induction fuel generalizing n with
  | zero => simp [natDigitsRevF] at h
  | succ fuel ih =>
    unfold natDigitsRevF at h
    split at h
    · rw [List.mem_singleton] at h
      rw [h]
      exact digitChar10_isDigit n
    · rcases List.mem_cons.mp h with h | h
      · rw [h]
        exact digitChar10_isDigit (n % 10)
      · exact ih h

theorem mem_insertSepRev {l : List Char} {k : ℕ} {c : Char}
    (h : c ∈ insertSepRev l k) : c ∈ l ∨ c = '٬' := by
  induction l generalizing k with
  | nil => simp [insertSepRev] at h
  | cons x xs ih =>
    unfold insertSepRev at h
    split at h
    · rcases List.mem_cons.mp h with h | h
      · exact Or.inr h
      · rcases List.mem_cons.mp h with h | h
        · exact Or.inl (h ▸ List.mem_cons_self x xs)
        · rcases ih h with h | h
          · exact Or.inl (List.mem_cons_of_mem x h)
          · exact Or.inr h
    · rcases List.mem_cons.mp h with h | h
      · exact Or.inl (h ▸ List.mem_cons_self x xs)
      · rcases ih h with h | h
        · exact Or.inl (List.mem_cons_of_mem x h)
        · exact Or.inr h

/-- Every character of a localized number is a digit, the thousands
separator, or a minus sign: no decimal point, hence no fractional part. -/
theorem add_thousands_sep_chars (n : ℚ) (c : Char)
    (h : c ∈ (add_thousands_sep n).toList) :
    c.isDigit = true ∨ c = '٬' ∨ c = '-' := by
  have h₁ : c ∈ (if pyRound n < 0 then ['-'] else []) ++
      (insertSepRev (natDigitsRev (pyRound n).natAbs) 0).reverse := h
  rcases List.mem_append.mp h₁ with h₂ | h₂
  · right; right
    by_cases hneg : pyRound n < 0
    · rw [if_pos hneg, List.mem_singleton] at h₂
      exact h₂
    · rw [if_neg hneg] at h₂
      exact absurd h₂ (List.not_mem_nil c)
  · rcases mem_insertSepRev (List.mem_reverse.mp h₂) with h₃ | h₃
    · exact Or.inl (mem_natDigitsRevF h₃)
    · exact Or.inr (Or.inl h₃)

theorem finalize_ne_empty (parts : List String) : finalize parts ≠ "" := by
  simp only [finalize]
  split_ifs with h
  · decide
  · exact h

theorem compose_reply_ok_ne
    {fetch : WcParams → Except Unit (List ProductRecord)} {divisor : ℚ}
    {label : String} {results_limit : ℤ} {plan : Json} {s : String}
    (h : compose_reply fetch divisor label results_limit plan = Except.ok s) :
    s ≠ "" := by
  unfold compose_reply at h
  cases hst : safe_text_j (plan.getD "reply" (Json.str "")) with
  | error e => rw [hst] at h; exact Except.noConfusion h
  | ok r =>
    rw [hst] at h
    simp only [] at h
    cases hpp : planParts fetch divisor label results_limit plan r with
    | error e => rw [hpp] at h; exact Except.noConfusion h
    | ok parts =>
      rw [hpp] at h
      simp only [] at h
      have hs : s = finalize parts := (Except.ok.inj h).symm
      rw [hs]
      exact finalize_ne_empty parts

theorem search_products_mem
    {fetch : WcParams → Except Unit (List ProductRecord)} {criteria : Criteria}
    {limit : ℤ} {p : ProductRecord}
    (h : p ∈ search_products fetch criteria limit) :
    ∃ items, fetch (buildParams criteria limit) = Except.ok items ∧ p ∈ items := by
  unfold search_products at h
  cases hf : fetch (buildParams criteria limit) with
  | error e => rw [hf] at h; exact absurd h (List.not_mem_nil p)
  | ok items =>
    rw [hf] at h
    exact ⟨items, rfl, List.mem_of_mem_filter (mem_pyTakeTo h)⟩

theorem metaOf_ok_of_safe {b : Json} (skuPart : String)
    (hb : (∃ s, b = Json.str s) ∨ b.truthy = false) :
    ∃ m, metaOf b skuPart = Except.ok m := by
  unfold metaOf
  rcases hb with ⟨s, rfl⟩ | hb
  · by_cases ht : (Json.str s).truthy = true
    · rw [if_pos ht]
      exact ⟨_, rfl⟩
    · rw [if_neg ht]
      exact ⟨skuPart, rfl⟩
  · rw [if_neg (by rw [hb]; exact Bool.false_ne_true)]
    exact ⟨skuPart, rfl⟩

theorem formatLine_ok {p : ProductRecord} (divisor : ℚ) (label : String)
    (h : brandRenderSafe p = true) :
    ∃ s, formatLine divisor label p = Except.ok s := by
  have hb : (∃ s, extract_brand p.attributes = Json.str s) ∨
      (extract_brand p.attributes).truthy = false := by
    unfold brandRenderSafe at h
    cases hx : extract_brand p.attributes with
    | str s => exact Or.inl ⟨s, rfl⟩
    | null => rw [hx] at h; exact Or.inr (by simpa using h)
    | bool b => rw [hx] at h; exact Or.inr (by simpa using h)
    | num q => rw [hx] at h; exact Or.inr (by simpa using h)
    | arr xs => rw [hx] at h; exact Or.inr (by simpa using h)
    | obj kvs => rw [hx] at h; exact Or.inr (by simpa using h)
  obtain ⟨m, hm⟩ := metaOf_ok_of_safe
    (if safe_text p.sku = "" then "" else "SKU: " ++ safe_text p.sku) hb
  simp only [formatLine]
  rw [hm]
  exact ⟨_, rfl⟩

theorem formatLines_ok (divisor : ℚ) (label : String) (ps : List ProductRecord)
    (h : ∀ p ∈ ps, brandRenderSafe p = true) :
    ∃ ls, formatLines divisor label ps = Except.ok ls := by
  induction ps with
  | nil => exact ⟨[], rfl⟩
  | cons p ps ih =>
    obtain ⟨l, hl⟩ := formatLine_ok divisor label (h p (List.mem_cons_self p ps))
    obtain ⟨ls, hls⟩ := ih (fun x hx => h x (List.mem_cons_of_mem p hx))
    refine ⟨l :: ls, ?_⟩
    unfold formatLines
    rw [hl, hls]

theorem format_products_ok (divisor : ℚ) (label : String)
    (ps : List ProductRecord) (h : ∀ p ∈ ps, brandRenderSafe p = true) :
    ∃ s, format_products divisor label ps = Except.ok s := by
  unfold format_products
  split_ifs with he
  · exact ⟨_, rfl⟩
  · obtain ⟨ls, hls⟩ := formatLines_ok divisor label ps h
    rw [hls]
    exact ⟨_, rfl⟩

theorem searchBlock_ok (fetch : WcParams → Except Unit (List ProductRecord))
    (divisor : ℚ) (label : String) (results_limit : ℤ) (criteria : Criteria)
    (hF : FetchOK fetch) :
    ∃ s, searchBlock fetch divisor label results_limit criteria = Except.ok s := by
  simp only [searchBlock]
  split_ifs with he
  · exact ⟨_, rfl⟩
  · have hall : ∀ p ∈ search_products fetch criteria results_limit,
        brandRenderSafe p = true := by
      intro p hp
      obtain ⟨items, hf, hm⟩ := search_products_mem hp
      exact hF _ items p hf hm
    obtain ⟨s, hs⟩ := format_products_ok divisor label _ hall
    rw [hs]
    exact ⟨_, rfl⟩

theorem conformsCriteria_nil : conformsCriteria (Json.obj []) = true := by decide

theorem conformsSchema_reply {kvs : List (String × Json)}
    (h : conformsSchema (Json.obj kvs) = true) :
    ∃ r, jget? kvs "reply" = some (Json.str r) := by
  simp only [conformsSchema, Bool.and_eq_true] at h
  obtain ⟨⟨⟨⟨-, -⟩, hrep⟩, -⟩, -⟩ := h
  cases hr : jget? kvs "reply" with
  | none => rw [hr] at hrep; exact nomatch hrep
  | some j =>
    rw [hr] at hrep
    cases j with
    | str r => exact ⟨r, rfl⟩
    | null => exact nomatch hrep
    | bool b => exact nomatch hrep
    | num q => exact nomatch hrep
    | arr xs => exact nomatch hrep
    | obj o => exact nomatch hrep

theorem conformsSchema_action {kvs : List (String × Json)}
    (h : conformsSchema (Json.obj kvs) = true) :
    ∃ a, jget? kvs "action" = some (Json.str a) ∧
      (a = "none" ∨ a = "search_products") := by
  simp only [conformsSchema, Bool.and_eq_true] at h
  obtain ⟨⟨⟨⟨-, -⟩, -⟩, hact⟩, -⟩ := h
  cases ha : jget? kvs "action" with
  | none => rw [ha] at hact; exact nomatch hact
  | some j =>
    rw [ha] at hact
    cases j with
    | str a =>
      refine ⟨a, rfl, ?_⟩
      have h₂ : (a == "none" || a == "search_products") = true := hact
      simpa using h₂
    | null => exact nomatch hact
    | bool b => exact nomatch hact
    | num q => exact nomatch hact
    | arr xs => exact nomatch hact
    | obj o => exact nomatch hact

theorem conformsSchema_criteria {kvs : List (String × Json)}
    (h : conformsSchema (Json.obj kvs) = true) :
    jget? kvs "criteria" = none ∨
      ∃ c, jget? kvs "criteria" = some c ∧ conformsCriteria c = true := by
  simp only [conformsSchema, Bool.and_eq_true] at h
  obtain ⟨⟨⟨⟨-, -⟩, -⟩, -⟩, hcrit⟩ := h
  cases hc : jget? kvs "criteria" with
  | none => exact Or.inl rfl
  | some c =>
    rw [hc] at hcrit
    exact Or.inr ⟨c, rfl, hcrit⟩

theorem criteriaOfJson_ok_of_conforms {c : Json}
    (h : conformsCriteria c = true) :
    ∃ cr, criteriaOfJson c = Except.ok cr := by
  cases c with
  | obj ckvs =>
    simp only [conformsCriteria, Bool.and_eq_true] at h
    obtain ⟨⟨⟨⟨⟨⟨⟨-, -⟩, hquery⟩, -⟩, -⟩, -⟩, -⟩, -⟩ := h
    unfold criteriaOfJson
    simp only []
    cases hq : jget? ckvs "query" with
    | none => exact ⟨_, rfl⟩
    | some v =>
      rw [hq] at hquery
      simp only []
      cases v with
      | str s =>
        by_cases ht : (Json.str s).truthy = true
        · rw [if_pos ht]
          exact ⟨_, rfl⟩
        · rw [if_neg ht]
          exact ⟨_, rfl⟩
      | null => exact nomatch hquery
      | bool b => exact nomatch hquery
      | num q => exact nomatch hquery
      | arr xs => exact nomatch hquery
      | obj o => exact nomatch hquery
  | null => exact nomatch h
  | bool b => exact nomatch h
  | num q => exact nomatch h
  | str s => exact nomatch h
  | arr xs => exact nomatch h

theorem planParts_ok_of_conforms {kvs : List (String × Json)}
    (fetch : WcParams → Except Unit (List ProductRecord)) (divisor : ℚ)
    (label : String) (results_limit : ℤ) (r : String)
    (hC : conformsSchema (Json.obj kvs) = true) (hF : FetchOK fetch) :
    ∃ parts, planParts fetch divisor label results_limit (Json.obj kvs) r =
      Except.ok parts := by
  obtain ⟨a, ha, -⟩ := conformsSchema_action hC
  simp only [planParts]
  have hga : (Json.obj kvs).get? "action" = some (Json.str a) := ha
  rw [hga]
  simp only []
  by_cases hsearch : a = "search_products"
  · rw [if_pos hsearch]
    have hconf : conformsCriteria
        (if ((Json.obj kvs).getD "criteria" (Json.obj [])).truthy
         then (Json.obj kvs).getD "criteria" (Json.obj []) else Json.obj []) = true := by
      rcases conformsSchema_criteria hC with hnone | ⟨cv, hcv, hcf⟩
      · have hgd : (Json.obj kvs).getD "criteria" (Json.obj []) = Json.obj [] := by
          simp [Json.getD, Json.get?, hnone]
        rw [hgd]
        split_ifs <;> exact conformsCriteria_nil
      · have hgd : (Json.obj kvs).getD "criteria" (Json.obj []) = cv := by
          simp [Json.getD, Json.get?, hcv]
        rw [hgd]
        split_ifs
        · exact hcf
        · exact conformsCriteria_nil
    obtain ⟨cr, hcr⟩ := criteriaOfJson_ok_of_conforms hconf
    rw [hcr]
    simp only []
    obtain ⟨block, hblock⟩ := searchBlock_ok fetch divisor label results_limit cr hF
    rw [hblock]
    exact ⟨[r, block], rfl⟩
  · rw [if_neg hsearch]
    exact ⟨[r], rfl⟩

theorem compose_reply_ok_of_conforms {kvs : List (String × Json)}
    (fetch : WcParams → Except Unit (List ProductRecord)) (divisor : ℚ)
    (label : String) (results_limit : ℤ)
    (hC : conformsSchema (Json.obj kvs) = true) (hF : FetchOK fetch) :
    ∃ s, compose_reply fetch divisor label results_limit (Json.obj kvs) =
      Except.ok s := by
  obtain ⟨r₀, hr₀⟩ := conformsSchema_reply hC
  have hst : safe_text_j ((Json.obj kvs).getD "reply" (Json.str "")) =
      Except.ok (pyStrip r₀) := by
    simp [Json.getD, Json.get?, hr₀, safe_text_j]
  obtain ⟨parts, hparts⟩ :=
    planParts_ok_of_conforms fetch divisor label results_limit (pyStrip r₀) hC hF
  unfold compose_reply
  rw [hst]
  simp only []
  rw [hparts]
  exact ⟨_, rfl⟩

/-- Claim C3: for every criteria object and every integer limit, provided the
backend honors the requested page size (`per_page`, the catalog-read contract
of spec §6), the product search returns at most `min(max(limit,1),10)`
records, and every returned record satisfies the in-stock predicate. -/
theorem claimC3_search_bound_and_stock
    (fetch : WcParams → Except Unit (List ProductRecord))
    (criteria : Criteria) (limit : ℤ)
    (hbackend : ∀ items, fetch (buildParams criteria limit) = Except.ok items →
      (items.length : ℤ) ≤ (buildParams criteria limit).per_page) :
    ((search_products fetch criteria limit).length : ℤ) ≤ min (max limit 1) 10 ∧
      ∀ p ∈ search_products fetch criteria limit, is_in_stock p = true := by
  have hpp : (buildParams criteria limit).per_page = min (max limit 1) 10 := rfl
  constructor
  · unfold search_products
    cases hf : fetch (buildParams criteria limit) with
    | error e =>
      simp only [List.length_nil, Nat.cast_zero]
      have h₁ : (1 : ℤ) ≤ max limit 1 := le_max_right limit 1
      exact le_min (le_trans (by norm_num) h₁) (by norm_num)
    | ok items =>
      have hb := hbackend items hf
      rw [hpp] at hb
      have h₁ : (pyTakeTo (items.filter is_in_stock) limit).length ≤
          (items.filter is_in_stock).length := length_pyTakeTo_le _ _
      have h₂ : (items.filter is_in_stock).length ≤ items.length :=
        List.length_filter_le _ _
      have h₃ : ((pyTakeTo (items.filter is_in_stock) limit).length : ℤ) ≤
          (items.length : ℤ) := by exact_mod_cast le_trans h₁ h₂
      simp only []
      exact le_trans h₃ hb
  · intro p hp
    unfold search_products at hp
    cases hf : fetch (buildParams criteria limit) with
    | error e => rw [hf] at hp; exact absurd hp (List.not_mem_nil p)
    | ok items =>
      rw [hf] at hp
      exact List.of_mem_filter (mem_pyTakeTo hp)

/-- Witness for claim C3 at a failing backend, criteria `{}` and limit 5. -/
theorem claimC3_witness :
    ((search_products fetchFail {} 5).length : ℤ) ≤ min (max 5 1) 10 ∧
      ∀ p ∈ search_products fetchFail {} 5, is_in_stock p = true :=
  claimC3_search_bound_and_stock fetchFail {} 5 (fun items hit => Except.noConfusion hit)

/-- Claim C4: for every criteria object and limit, when the backend catalog
call fails, `search_products` returns the empty list instead of raising. -/
theorem claimC4_search_empty_on_fetch_failure
    (fetch : WcParams → Except Unit (List ProductRecord))
    (criteria : Criteria) (limit : ℤ)
    (h : fetch (buildParams criteria limit) = Except.error ()) :
    search_products fetch criteria limit = [] := by
  unfold search_products
  rw [h]

/-- Witness for claim C4: the always-failing backend yields `[]`. -/
theorem claimC4_witness : search_products fetchFail {} 5 = [] :=
  claimC4_search_empty_on_fetch_failure fetchFail {} 5 rfl

/-- The sanitizer as claim C9 words it: characters outside the allowed class
are stripped (removed), then the result is truncated to 80 units. -/
def sanitizeStripSpec (s : String) : String :=
  String.mk ((s.toList.filter allowedChar).take 80)

/-- Claim C9 (counterexample): on the query `a!b` the search parameter the
code builds is `a b` — the disallowed character is replaced by a space, not
stripped as the claim states. -/
theorem claimC9_counterexample :
    (buildParams { query := some "a!b" } 5).search = some "a b" ∧
      (buildParams { query := some "a!b" } 5).search ≠ some (sanitizeStripSpec "a!b") := by
  constructor
  · decide
  · decide

/-- The sanitizer as the code implements it: each disallowed character is
replaced by a space, then the result is truncated to 80 characters. -/
def sanitizeAmended (s : String) : String :=
  String.mk ((s.toList.map (fun c => if allowedChar c then c else ' ')).take 80)

/-- Claim C9 (amended): for every criteria object with a non-empty query, the
free-text search parameter is the query with each character outside
alphanumerics, U+0600 to U+06FF, whitespace, hyphen and underscore replaced by
a space, truncated to at most 80 units. -/
theorem claimC9_search_param_sanitized (criteria : Criteria) (s : String)
    (limit : ℤ) (hq : criteria.query = some s) (hne : s ≠ "") :
    (buildParams criteria limit).search = some (sanitizeAmended s) ∧
      (sanitizeAmended s).length ≤ 80 := by
  constructor
  · simp only [buildParams, hq]
    rw [if_neg hne]
    rfl
  · have h : (sanitizeAmended s).length =
        ((s.toList.map (fun c => if allowedChar c then c else ' ')).take 80).length := rfl
    rw [h]
    exact List.length_take_le 80 _

/-- Witness for claim C9 (amended) at the query `a!b`. -/
theorem claimC9_witness :
    (buildParams { query := some "a!b" } 7).search = some (sanitizeAmended "a!b") ∧
      (sanitizeAmended "a!b").length ≤ 80 :=
  claimC9_search_param_sanitized { query := some "a!b" } "a!b" 7 rfl (by decide)

/-- Claim C7: for every non-numeric malformed raw price, `to_toman` returns
the raw value verbatim with the currency label, and never the empty string. -/
theorem claimC7_malformed_price_verbatim (divisor : ℚ) (label : String)
    (s : String) (hparse : pyFloat? s = none) (hne : s ≠ "") :
    to_toman divisor label (some s) = s ++ " " ++ label ∧
      to_toman divisor label (some s) ≠ "" := by
  have h₀ : s ≠ "0" := by
    intro h
    rw [h, pyFloat?_zero] at hparse
    exact Option.noConfusion hparse
  have hcond : ¬(s = "" ∨ s = "0") := by
    rintro (h | h)
    · exact hne h
    · exact h₀ h
  have he : to_toman divisor label (some s) = s ++ " " ++ label := by
    simp only [to_toman, if_neg hcond, hparse]
  refine ⟨he, ?_⟩
  rw [he]
  intro hempty
  have hlen := congrArg String.length hempty
  rw [String.length_append, String.length_append] at hlen
  have h₁ : (" " : String).length = 1 := rfl
  have h₂ : ("" : String).length = 0 := rfl
  rw [h₁, h₂] at hlen
  omega

/-- Witness for claim C7 at the malformed price `abc`. -/
theorem claimC7_witness :
    to_toman 10 "تومان" (some "abc") = "abc" ++ " " ++ "تومان" ∧
      to_toman 10 "تومان" (some "abc") ≠ "" :=
  claimC7_malformed_price_verbatim 10 "تومان" "abc" (by decide) (by decide)

/-- Claim C6 (counterexample): with the divisor environment variable unset,
`PRICE_DIVISOR` defaults to `10` and the division happens — the parsed value
`100` renders as `10 تومان`, not unchanged as the claim states for the unset
case. -/
theorem claimC6_counterexample :
    to_toman defaultPriceDivisor "تومان" (some "100") = "10 تومان" ∧
      to_toman defaultPriceDivisor "تومان" (some "100") ≠ "100 تومان" := by
  have hp : pyFloat? "100" = some 100 := by simp [pyFloat?, digitsVal]; norm_num
  have hr : pyRound ((100 : ℚ) / 10) = 10 := by norm_num [pyRound, ratfloor]
  have hsep : add_thousands_sep ((100 : ℚ) / 10) = "10" := by
    simp only [add_thousands_sep, hr]
    decide
  have he : to_toman defaultPriceDivisor "تومان" (some "100") = "10 تومان" := by
    have h₁ := to_toman_parsed 10 "تومان" "100" 100 hp (by norm_num)
    rw [show defaultPriceDivisor = 10 from rfl, h₁, hsep]
    decide
  exact ⟨he, by rw [he]; decide⟩

/-- Claim C6 (amended): null, empty and `"0"` prices render as
`0 <label>`; a parsed price with divisor `d ≠ 0` renders as the grouped
format of `parse(p)/d` with the label; with `d = 0` the division is skipped;
and an unset divisor defaults to `10` (so division by 10 happens, rather than
being skipped). -/
theorem claimC6_localize_price :
    (∀ d label, to_toman d label none = "0 " ++ label ∧
       to_toman d label (some "") = "0 " ++ label ∧
       to_toman d label (some "0") = "0 " ++ label) ∧
    (∀ d label p q, pyFloat? p = some q → d ≠ 0 →
       to_toman d label (some p) = add_thousands_sep (q / d) ++ " " ++ label) ∧
    (∀ label p q, pyFloat? p = some q →
       to_toman 0 label (some p) = add_thousands_sep q ++ " " ++ label) ∧
    defaultPriceDivisor = 10 := by
  refine ⟨?_, ?_, ?_, rfl⟩
  · intro d label
    refine ⟨rfl, ?_, ?_⟩
    · simp [to_toman]
    · simp [to_toman]
  · intro d label p q hp hd
    exact to_toman_parsed d label p q hp hd
  · intro label p q hp
    exact to_toman_parsed_nodiv label p q hp

/-- Witness for claim C6 (amended) at price `100` and divisor `10`. -/
theorem claimC6_witness :
    to_toman 10 "تومان" (some "100") =
      add_thousands_sep ((100 : ℚ) / 10) ++ " " ++ "تومان" :=
  claimC6_localize_price.2.1 10 "تومان" "100" 100
    (by simp [pyFloat?, digitsVal]; norm_num) (by norm_num)

/-- Claim C10: a parsed price is displayed as its Python rounding to a whole
number (the rendering of `parse(p)/d` equals the rendering of the integer
`round(parse(p)/d)`), and the rendered number contains only digits, the
thousands separator and a sign — never a decimal point or fractional part. -/
theorem claimC10_display_rounded (divisor : ℚ) (label : String) (p : String)
    (q : ℚ) (hd : divisor ≠ 0) (hp : pyFloat? p = some q) :
    to_toman divisor label (some p) =
      add_thousands_sep ((pyRound (q / divisor) : ℤ) : ℚ) ++ " " ++ label ∧
    ∀ c ∈ (add_thousands_sep (q / divisor)).toList,
      c.isDigit = true ∨ c = '٬' ∨ c = '-' := by
  constructor
  · rw [to_toman_parsed divisor label p q hp hd, add_thousands_sep_round]
  · exact fun c hc => add_thousands_sep_chars _ c hc

/-- Witness for claim C10 at price `105` and divisor `10` (a non-integer
quotient). -/
theorem claimC10_witness :
    to_toman 10 "تومان" (some "105") =
      add_thousands_sep ((pyRound ((105 : ℚ) / 10) : ℤ) : ℚ) ++ " " ++ "تومان" ∧
    ∀ c ∈ (add_thousands_sep ((105 : ℚ) / 10)).toList,
      c.isDigit = true ∨ c = '٬' ∨ c = '-' :=
  claimC10_display_rounded 10 "تومان" "105" 105 (by norm_num)
    (by simp [pyFloat?, digitsVal]; norm_num)

/-- Claim C2 (counterexample): when the inference response parses to the
empty dict `{}`, `call_gpt` returns it as-is — the result has no `reply` at
all, refuting the claim that every planner result carries a non-empty reply
and a valid action. -/
theorem claimC2_counterexample :
    validPlanB (call_gpt (some (Except.ok ⟨some (Json.obj []), none⟩)) "") = false := rfl

/-- Claim C2 (amended): `call_gpt` never raises and always returns a dict;
whenever the inference capability is unconfigured, the request fails, or the
extraction does not produce a dict, the result carries a non-empty reply and
the action `none`; a dict extracted from the provider response is returned
as-is (schema enforcement is delegated to the provider). -/
theorem claimC2_planner_degrades :
    (∀ infer t, ∃ kvs, call_gpt infer t = Json.obj kvs) ∧
    (∀ t, validPlanB (call_gpt none t) = true) ∧
    (∀ t e, validPlanB (call_gpt (some (Except.error e)) t) = true) ∧
    (∀ t resp, (∀ kvs, extract resp ≠ some (Json.obj kvs)) →
      validPlanB (call_gpt (some (Except.ok resp)) t) = true) := by
  refine ⟨?_, fun t => rfl, fun t e => rfl, ?_⟩
  · intro infer t
    cases infer with
    | none => exact ⟨_, rfl⟩
    | some r =>
      cases r with
      | error e => exact ⟨_, rfl⟩
      | ok resp =>
        cases hx : extract resp with
        | none => simp only [call_gpt, hx]; exact ⟨_, rfl⟩
        | some j =>
          cases j with
          | obj kvs => simp only [call_gpt, hx]; exact ⟨kvs, rfl⟩
          | null => simp only [call_gpt, hx]; exact ⟨_, rfl⟩
          | bool b => simp only [call_gpt, hx]; exact ⟨_, rfl⟩
          | num q => simp only [call_gpt, hx]; exact ⟨_, rfl⟩
          | str s => simp only [call_gpt, hx]; exact ⟨_, rfl⟩
          | arr xs => simp only [call_gpt, hx]; exact ⟨_, rfl⟩
  · intro t resp hne
    cases hx : extract resp with
    | none => simp only [call_gpt, hx]; rfl
    | some j =>
      cases j with
      | obj kvs => exact absurd hx (hne kvs)
      | null => simp only [call_gpt, hx]; rfl
      | bool b => simp only [call_gpt, hx]; rfl
      | num q => simp only [call_gpt, hx]; rfl
      | str s => simp only [call_gpt, hx]; rfl
      | arr xs => simp only [call_gpt, hx]; rfl

/-- Witness for claim C2 (amended): a response from which no structured
object can be extracted yields the degraded plan. -/
theorem claimC2_witness :
    validPlanB (call_gpt (some (Except.ok ⟨none, none⟩)) "hi") = true :=
  claimC2_planner_degrades.2.2.2 "hi" ⟨none, none⟩ (fun kvs h => Option.noConfusion h)

/-- Claim C5 (counterexample): an inbound payload that does not validate as a
Telegram Update (here the empty object, lacking `update_id`) makes the
endpoint raise instead of returning the `{ok: true}` acknowledgment. -/
theorem claimC5_counterexample :
    telegram_webhook feedOk (Json.obj []) ≠ Except.ok { ok := true } := by
  intro h
  exact Except.noConfusion h

/-- Claim C5 (amended): for every payload that validates as an Update and
whose dispatch completes without raising, the endpoint responds with the
fixed `{ok: true}` acknowledgment, independent of what the handler did. -/
theorem claimC5_webhook_acks (feed : ℤ → Except Unit Unit) (body : Json)
    (u : ℤ) (hv : validate_update body = Except.ok u)
    (hf : feed u = Except.ok ()) :
    telegram_webhook feed body = Except.ok { ok := true } := by
  unfold telegram_webhook
  rw [hv]
  simp only []
  rw [hf]

/-- Witness for claim C5 (amended) at a well-formed update payload. -/
theorem claimC5_witness :
    telegram_webhook feedOk (Json.obj [("update_id", Json.num 1)]) =
      Except.ok { ok := true } :=
  claimC5_webhook_acks feedOk (Json.obj [("update_id", Json.num 1)]) 1
    (by simp [validate_update, jget?, Rat.den_one, Rat.num_one]) rfl

/-- Claim C8 (code bug): the empty result set renders as the fixed
nothing-found message, but a record with a malformed attribute structure
(a non-string `options` entry) makes `format_products` raise: the extracted
brand `5` reaches `" | ".join` outside the `try` that guards extraction,
contradicting the never-raise claim. -/
theorem claimC8_format_raises_on_malformed_attributes :
    format_products 10 "تومان" [badAttrsProduct] = Except.error () ∧
      format_products 10 "تومان" [] =
        Except.ok "فعلاً موردی مطابق معیارها موجود نیست." := by
  constructor
  · have hb : extract_brand badAttrsProduct.attributes = Json.num 5 := by
      have hbrand : pyLower "brand" = "brand" := by decide
      simp [badAttrsProduct, extract_brand, brandLoop, jget?, Json.truthy,
        pyIndex0, hbrand]
    have ht : (Json.num 5).truthy = true := by
      norm_num [Json.truthy]
    have hm : metaOf (Json.num 5) "" = Except.error () := by
      unfold metaOf
      rw [if_pos ht]
    have hline : formatLine 10 "تومان" badAttrsProduct = Except.error () := by
      have hsku : (if safe_text badAttrsProduct.sku = "" then ""
          else "SKU: " ++ safe_text badAttrsProduct.sku) = "" := rfl
      simp only [formatLine, hb, hsku, hm]
    have hlines : formatLines 10 "تومان" [badAttrsProduct] = Except.error () := by
      unfold formatLines
      rw [hline]
    unfold format_products
    rw [show ([badAttrsProduct].isEmpty) = false from rfl]
    simp only [Bool.false_eq_true, if_false]
    rw [hlines]
  · rfl

/-- Claim C1: for every input text (including absent text), and for any
inference oracle honoring the strict response schema and any catalog oracle
delivering renderable records, `on_message` returns `Except.ok` with a
non-empty reply — in particular whenever the planner or the catalog fetch
fail outright; and when the composed text is empty after trimming (a
schema-valid plan with an empty reply and no search), the fixed fallback
acknowledgment is substituted. -/
theorem claimC1_orchestrator_total_nonempty :
    (∀ infer fetch divisor label results_limit msg_text,
        PlanOK infer → FetchOK fetch →
        ∃ s, on_message infer fetch divisor label results_limit msg_text =
          Except.ok s ∧ s ≠ "") ∧
    (∀ fetch divisor label results_limit msg_text,
        on_message emptyReplyInfer fetch divisor label results_limit msg_text =
          Except.ok "پیامت دریافت شد.") := by
  constructor
  · intro infer fetch divisor label results_limit msg_text hP hF
    have hok : ∃ s, compose_reply fetch divisor label results_limit
        (call_gpt infer (msg_text.getD "")) = Except.ok s := by
      cases infer with
      | none => exact ⟨_, rfl⟩
      | some r =>
        cases r with
        | error e => exact ⟨_, rfl⟩
        | ok resp =>
          cases hx : extract resp with
          | none => simp only [call_gpt, hx]; exact ⟨_, rfl⟩
          | some j =>
            cases j with
            | obj kvs =>
              simp only [call_gpt, hx]
              exact compose_reply_ok_of_conforms fetch divisor label
                results_limit (hP resp kvs rfl hx) hF
            | null => simp only [call_gpt, hx]; exact ⟨_, rfl⟩
            | bool b => simp only [call_gpt, hx]; exact ⟨_, rfl⟩
            | num q => simp only [call_gpt, hx]; exact ⟨_, rfl⟩
            | str s => simp only [call_gpt, hx]; exact ⟨_, rfl⟩
            | arr xs => simp only [call_gpt, hx]; exact ⟨_, rfl⟩
    obtain ⟨s, hs⟩ := hok
    exact ⟨s, hs, compose_reply_ok_ne hs⟩
  · intro fetch divisor label results_limit msg_text
    rfl

/-- Witness for claim C1: unconfigured inference, failing catalog, absent
message text. -/
theorem claimC1_witness :
    ∃ s, on_message none fetchFail 10 "تومان" 5 none = Except.ok s ∧ s ≠ "" :=
  claimC1_orchestrator_total_nonempty.1 none fetchFail 10 "تومان" 5 none
    (fun resp kvs h => Option.noConfusion h)
    (fun ps items p h hm => Except.noConfusion h)
